import Mathlib

/-!
Verification development for the localchat streaming completion orchestrator.

The definitions below are a shallow embedding of the Rust sources:
  * `src-tauri/src/api.rs`   — the SSE delta extractor inside
    `OpenAICompatibleProvider::send_chat_stream_request` (lines 132–184);
  * `src-tauri/src/commands.rs` — the background streaming loops of
    `send_message` (lines 236–313) and `regenerate_last_response`
    (lines 567–634), together with the cancellation registry checks;
  * `src-tauri/src/models.rs` — the `Message` record.

JSON values are modelled by an inductive `Json` type (numbers as `Int`,
which is sufficient for every field the extractor inspects); a decoded SSE
event is its raw `data` string together with the result of the generic
`serde_json::from_str::<Value>` parse of the trimmed string (`none` when
the payload is not valid JSON).  `serde_json::from_str::<OpenAIStreamChunk>`
succeeds exactly when the generic parse succeeds and the resulting value
matches the derived schema, which `parseChunk` reproduces field by field
(unknown fields tolerated, required fields mandatory, `Option` fields
absent-or-null).
-/

namespace LocalChat

/-- JSON values, mirroring `serde_json::Value` (numbers restricted to
integers, which covers every field the extractor reads). -/
inductive Json where
  | null : Json
  | bool (b : Bool) : Json
  | num (n : Int) : Json
  | str (s : String) : Json
  | arr (xs : List Json) : Json
  | obj (fields : List (String × Json)) : Json

/-- Lookup mirroring `Value::get(key)` on an object: the value stored under `key`. -/
def Json.getField : Json → String → Option Json
  | .obj fields, key => fields.lookup key
  | _, _ => none

/-- Struct `OpenAIStreamDelta` from `api.rs`: optional `role`, optional `content`. -/
structure OpenAIStreamDelta where
  role : Option String
  content : Option String
  deriving Repr, DecidableEq

/-- Struct `OpenAIStreamChoice` from `api.rs`. -/
structure OpenAIStreamChoice where
  index : Nat
  delta : OpenAIStreamDelta
  finish_reason : Option String
  deriving Repr, DecidableEq

/-- Struct `OpenAIStreamChunk` from `api.rs`: the canonical streaming chunk schema. -/
structure OpenAIStreamChunk where
  id : String
  object : String
  created : Int
  model : String
  choices : List OpenAIStreamChoice
  deriving Repr, DecidableEq

/-- Deserialize a required `String` field (serde: present and a JSON string). -/
def getStr (v : Json) (key : String) : Option String :=
  match v.getField key with
  | some (.str s) => some s
  | _ => none

/-- Deserialize a required `i64` field. -/
def getInt (v : Json) (key : String) : Option Int :=
  match v.getField key with
  | some (.num n) => some n
  | _ => none

/-- Deserialize a required `u32` field (serde rejects negatives and
values beyond `u32::MAX`). -/
def getU32 (v : Json) (key : String) : Option Nat :=
  match v.getField key with
  | some (.num n) => if 0 ≤ n ∧ n < 2 ^ 32 then some n.toNat else none
  | _ => none

/-- Deserialize an `Option<String>` field (serde: missing ↦ `None`,
`null` ↦ `None`, string ↦ `Some`, anything else is a schema error). -/
def getOptStr (v : Json) (key : String) : Option (Option String) :=
  match v.getField key with
  | none => some none
  | some .null => some none
  | some (.str s) => some (some s)
  | some _ => none

/-- serde derive for `OpenAIStreamDelta`: an object with optional
`role` and `content` string fields. -/
def parseDelta (v : Json) : Option OpenAIStreamDelta :=
  match v with
  | .obj _ => do
    let role ← getOptStr v "role"
    let content ← getOptStr v "content"
    pure { role := role, content := content }
  | _ => none

/-- serde derive for `OpenAIStreamChoice`: required `index` and `delta`,
optional `finish_reason`. -/
def parseChoice (v : Json) : Option OpenAIStreamChoice :=
  match v with
  | .obj _ => do
    let index ← getU32 v "index"
    let deltaJson ← v.getField "delta"
    let delta ← parseDelta deltaJson
    let finish ← getOptStr v "finish_reason"
    pure { index := index, delta := delta, finish_reason := finish }
  | _ => none

/-- serde derive for `Vec<OpenAIStreamChoice>`: a JSON array whose every
element deserializes as a choice. -/
def parseChoices (v : Json) : Option (List OpenAIStreamChoice) :=
  match v with
  | .arr xs => xs.mapM parseChoice
  | _ => none

/-- Schema parse `serde_json::from_str::<OpenAIStreamChunk>` on an already-parsed JSON
value: required `id`, `object`, `created`, `model`, `choices`; unknown
fields are tolerated. -/
def parseChunk (v : Json) : Option OpenAIStreamChunk :=
  match v with
  | .obj _ => do
    let i ← getStr v "id"
    let o ← getStr v "object"
    let created ← getInt v "created"
    let model ← getStr v "model"
    let choicesJson ← v.getField "choices"
    let choices ← parseChoices choicesJson
    pure { id := i, object := o, created := created, model := model,
           choices := choices }
  | _ => none

/-- One decoded SSE event: the raw `data` payload plus the result of the
generic JSON parse of its trimmed form (`none` when not valid JSON). -/
structure EventData where
  raw : String
  parsed : Option Json

/-- The errors produced by the extractor closure in `api.rs`:
`notAChunk` is the "valid JSON but not a valid OpenAIStreamChunk" error
(carrying the original schema-parse failure and the raw payload),
`notJson` the "failed to parse as JSON" error. -/
inductive ParseErr where
  | notAChunk (data : String) : ParseErr
  | notJson (data : String) : ParseErr
  deriving Repr, DecidableEq

/-- Drop leading and trailing whitespace from a character list. -/
def trimChars (cs : List Char) : List Char :=
  ((cs.dropWhile Char.isWhitespace).reverse.dropWhile Char.isWhitespace).reverse

/-- Rust's `str::trim`, applied to `event.data` in `api.rs` line 135:
removes leading and trailing whitespace characters. -/
def trimString (s : String) : String := ⟨trimChars s.data⟩

/-- The ping check of `api.rs` line 157:
`json_value.get("type") == Some(&Value::String("ping"))`. -/
def isPing (v : Json) : Bool :=
  match v.getField "type" with
  | some (.str s) => s = "ping"
  | _ => false

/-- The per-event closure of `api.rs` lines 133–174: trim, check the
`[DONE]` sentinel, try the chunk schema, fall back to generic JSON with
the ping check, otherwise error.  `.ok none` is the `Ok(None)` skip
signal, `.ok (some c)` an `Ok(Some(content))`. -/
def processEvent (e : EventData) : Except ParseErr (Option String) :=
  let eventData := trimString e.raw
  if eventData = "[DONE]" then
    .ok none
  else
    match e.parsed.bind parseChunk with
    | some chunk =>
      .ok ((chunk.choices.head?).bind (fun choice => choice.delta.content))
    | none =>
      match e.parsed with
      | some jsonValue =>
        if isPing jsonValue then
          .ok none
        else
          .error (.notAChunk eventData)
      | none => .error (.notJson eventData)

/-- The `filter_map` of `api.rs` lines 175–184: drop `Ok(None)` skip
signals, keep content items and errors.  The result is the delta stream
the session controller consumes. -/
def extractDeltas (events : List EventData) : List (Except ParseErr String) :=
  events.filterMap (fun e =>
    match processEvent e with
    | .ok (some content) => some (.ok content)
    | .ok none => none
    | .error err => some (.error err))

/-!
The streaming session controller.  `commands.rs` runs one background task
per turn; after the stream is obtained the task emits lifecycle events,
accumulates content, checks the cancellation registry once per pulled
delta, persists the result and emits the finished notification.  The
observable effects of one task are recorded as a trace of events; ids and
timestamps are opaque strings/integers supplied by an environment.
-/

/-- Record `Message` from `models.rs` (UUIDs as opaque strings, timestamps as
integer seconds, matching the sqlite schema). -/
structure Message where
  id : String
  conversation_id : String
  role : String
  content : String
  timestamp : Int
  metadata : Option String
  deriving Repr, DecidableEq

/-- Observable effects of a streaming task: the three lifecycle
notifications emitted through the app handle, and the `save_message`
call on the storage collaborator.  Each constructor records one call
being made (emit/save failures are logged by the code, not reflected in
control flow except for `streamStarted` on the send path). -/
inductive Ev where
  | streamStarted (conversationId messageId : String) : Ev
  | messageChunk (conversationId messageId delta : String) : Ev
  | saveMessage (msg : Message) : Ev
  | streamFinished (messageId : String) : Ev
  deriving Repr, DecidableEq

/-- Terminal classification of one streaming task. -/
inductive Outcome where
  | completed : Outcome
  | cancelled : Outcome
  | errored : Outcome
  | aborted : Outcome
  deriving Repr, DecidableEq

/-- Environment of one background task: the ids it interpolates into
events, the clock value used for the final `Message`, whether the
`stream_started` emit succeeds, whether the final `save_message`
succeeds, and the loop-check index at which `stop_generation` has
inserted this task's message id into `cancelled_streams` (`none` when no
cancellation request ever lands). -/
structure Env where
  conversationId : String
  messageId : String
  now : Int
  startEmitOk : Bool
  saveOk : Bool
  markAt : Option Nat
  deriving Repr, DecidableEq

/-- Result of `storage.save_message(&assistant_message)`. -/
def saveResult (env : Env) (_msg : Message) : Except String Unit :=
  if env.saveOk then .ok () else .error "storage failure"

/-- Result of one streaming loop: its emitted events, the terminal
classification, the number of deltas pulled from the stream, the final
accumulated `full_content` buffer, whether `cancelled_streams` still
contains the message id afterwards, and whether the cancellation check
ever fired. -/
structure LoopOut where
  trace : List Ev
  outcome : Outcome
  consumed : Nat
  acc : String
  regStillMarked : Bool
  observedCancel : Bool
  deriving Repr, DecidableEq

/-- Whether `cancelled_streams` contains the message id at the `k`-th
loop check: `reg` is the registry state entering the iteration, and the
environment's `markAt` says before which check the concurrent
`stop_generation` insert lands. -/
def regAfterMark (env : Env) (k : Nat) (reg : Bool) : Bool :=
  if env.markAt = some k then true else reg

/-- The `while let Some(delta_result) = delta_stream.next().await` loop,
identical in `send_message` (commands.rs 255–279) and
`regenerate_last_response` (commands.rs 573–605).  `k` counts loop
iterations.  Each iteration pulls one delta, first checks
`contains_key` on the registry (removing the entry and breaking when it
fires), then appends `Ok` content to the buffer and emits a chunk, or
breaks on `Err`. -/
def streamLoop (env : Env) :
    List (Except ParseErr String) → Nat → Bool → String → LoopOut
  | [], _, reg, acc =>
    { trace := [], outcome := .completed, consumed := 0, acc := acc,
      regStillMarked := reg, observedCancel := false }
  | delta :: rest, k, reg, acc =>
    if regAfterMark env k reg then
      { trace := [], outcome := .cancelled, consumed := 1, acc := acc,
        regStillMarked := false, observedCancel := true }
    else
      match delta with
      | .ok content =>
        let r := streamLoop env rest (k + 1) (regAfterMark env k reg)
                  (acc ++ content)
        { r with
            trace := .messageChunk env.conversationId env.messageId content
                      :: r.trace,
            consumed := r.consumed + 1 }
      | .error _ =>
        { trace := [], outcome := .errored, consumed := 1, acc := acc,
          regStillMarked := regAfterMark env k reg, observedCancel := false }

/-- Result of one whole background task. -/
structure RunResult where
  trace : List Ev
  outcome : Outcome
  consumed : Nat
  acc : String
  regStillMarked : Bool
  observedCancel : Bool
  deriving Repr, DecidableEq

/-- The assistant `Message` built at finalization (commands.rs 283–290
and 619–626). -/
def mkAssistantMessage (env : Env) (content : String) : Message :=
  { id := env.messageId, conversation_id := env.conversationId,
    role := "assistant", content := content, timestamp := env.now,
    metadata := none }

/-- The `send_message` background task from the point the delta stream
is available (commands.rs 236–313): emit `assistant_stream_started`
(aborting the task if that emit fails), run the loop, save the
assistant message unconditionally (a save failure is only logged), then
emit `assistant_stream_finished`. -/
def runSend (env : Env) (deltas : List (Except ParseErr String)) : RunResult :=
  let started := Ev.streamStarted env.conversationId env.messageId
  if env.startEmitOk then
    let r := streamLoop env deltas 0 false ""
    let msg := mkAssistantMessage env r.acc
    let tail :=
      match saveResult env msg with
      | .ok _ => [Ev.streamFinished env.messageId]
      | .error _ => [Ev.streamFinished env.messageId]
    { trace := started :: r.trace ++ (Ev.saveMessage msg :: tail),
      outcome := r.outcome, consumed := r.consumed, acc := r.acc,
      regStillMarked := r.regStillMarked,
      observedCancel := r.observedCancel }
  else
    { trace := [started], outcome := .aborted, consumed := 0, acc := "",
      regStillMarked := false, observedCancel := false }

/-- The `regenerate_last_response` background task from the point the
delta stream is available (commands.rs 567–634): no started event is
emitted; after the loop the finished event is emitted first, and the
assistant message is saved only when `full_content` is non-empty (a save
failure is only logged). -/
def runRegen (env : Env) (deltas : List (Except ParseErr String)) : RunResult :=
  let r := streamLoop env deltas 0 false ""
  let saves :=
    if r.acc.isEmpty then
      []
    else
      let msg := mkAssistantMessage env r.acc
      match saveResult env msg with
      | .ok _ => [Ev.saveMessage msg]
      | .error _ => [Ev.saveMessage msg]
  { trace := r.trace ++ (Ev.streamFinished env.messageId :: saves),
    outcome := r.outcome, consumed := r.consumed, acc := r.acc,
    regStillMarked := r.regStillMarked,
    observedCancel := r.observedCancel }

/-- The deltas carried by the `message_chunk` events of a trace, in
order. -/
def chunkDeltas (trace : List Ev) : List String :=
  trace.filterMap (fun e =>
    match e with
    | .messageChunk _ _ delta => some delta
    | _ => none)

/-- The contents of the messages passed to `save_message` in a trace, in
order. -/
def savedContents (trace : List Ev) : List String :=
  trace.filterMap (fun e =>
    match e with
    | .saveMessage msg => some msg.content
    | _ => none)

/-- Number of `stream_finished` events of a trace. -/
def countFinished (trace : List Ev) : Nat :=
  trace.countP (fun e =>
    match e with
    | .streamFinished _ => true
    | _ => false)

/-- Number of `stream_started` events of a trace. -/
def countStarted (trace : List Ev) : Nat :=
  trace.countP (fun e =>
    match e with
    | .streamStarted _ _ => true
    | _ => false)

/-- Is the event a `message_chunk`? -/
def isChunk (e : Ev) : Bool :=
  match e with
  | .messageChunk _ _ _ => true
  | _ => false

/-- Concatenation of a list of strings, in order (the effect of the
successive `full_content.push_str(&delta_content)` calls). -/
def concatAll : List String → String
  | [] => ""
  | s :: rest => s ++ concatAll rest

/-! ### Helper lemmas -/

theorem chunkDeltas_append (t1 t2 : List Ev) :
    chunkDeltas (t1 ++ t2) = chunkDeltas t1 ++ chunkDeltas t2 := by
  simp [chunkDeltas]

theorem savedContents_append (t1 t2 : List Ev) :
    savedContents (t1 ++ t2) = savedContents t1 ++ savedContents t2 := by
  simp [savedContents]

theorem countFinished_append (t1 t2 : List Ev) :
    countFinished (t1 ++ t2) = countFinished t1 + countFinished t2 := by
  simp [countFinished, List.countP_append]

theorem countStarted_append (t1 t2 : List Ev) :
    countStarted (t1 ++ t2) = countStarted t1 + countStarted t2 := by
  simp [countStarted, List.countP_append]

theorem isChunk_elim {e : Ev} (h : isChunk e = true) :
    ∃ c m d, e = Ev.messageChunk c m d := by
  cases e with
  | messageChunk c m d => exact ⟨c, m, d, rfl⟩
  | _ => simp [isChunk] at h

theorem chunkOnly_countFinished {t : List Ev} (h : ∀ e ∈ t, isChunk e = true) :
    countFinished t = 0 := by
  simp only [countFinished, List.countP_eq_zero]
  intro e he
  obtain ⟨c, m, d, rfl⟩ := isChunk_elim (h e he)
  simp

theorem chunkOnly_countStarted {t : List Ev} (h : ∀ e ∈ t, isChunk e = true) :
    countStarted t = 0 := by
  simp only [countStarted, List.countP_eq_zero]
  intro e he
  obtain ⟨c, m, d, rfl⟩ := isChunk_elim (h e he)
  simp

theorem chunkOnly_savedContents {t : List Ev} (h : ∀ e ∈ t, isChunk e = true) :
    savedContents t = [] := by
  simp only [savedContents, List.filterMap_eq_nil_iff]
  intro e he
  obtain ⟨c, m, d, rfl⟩ := isChunk_elim (h e he)
  simp

/-- The two branches of the `if let Err(e) = storage.save_message(...)`
check both fall through to the finished emit. -/
theorem saveTail_finished (env : Env) (msg : Message) :
    (match saveResult env msg with
     | .ok _ => [Ev.streamFinished env.messageId]
     | .error _ => [Ev.streamFinished env.messageId])
      = [Ev.streamFinished env.messageId] := by
  cases h : saveResult env msg <;> rfl

/-- The two branches of the regenerate path's save check both record one
`save_message` call. -/
theorem saveList_save (env : Env) (msg : Message) :
    (match saveResult env msg with
     | .ok _ => [Ev.saveMessage msg]
     | .error _ => [Ev.saveMessage msg])
      = [Ev.saveMessage msg] := by
  cases h : saveResult env msg <;> rfl

/-- Unfolding of `runSend` in the non-aborting case. -/
theorem runSend_eq (env : Env) (deltas : List (Except ParseErr String))
    (h : env.startEmitOk = true) :
    runSend env deltas
      = { trace := Ev.streamStarted env.conversationId env.messageId
            :: ((streamLoop env deltas 0 false "").trace
              ++ [Ev.saveMessage
                    (mkAssistantMessage env (streamLoop env deltas 0 false "").acc),
                  Ev.streamFinished env.messageId]),
          outcome := (streamLoop env deltas 0 false "").outcome,
          consumed := (streamLoop env deltas 0 false "").consumed,
          acc := (streamLoop env deltas 0 false "").acc,
          regStillMarked := (streamLoop env deltas 0 false "").regStillMarked,
          observedCancel := (streamLoop env deltas 0 false "").observedCancel } := by
  simp [runSend, h, saveTail_finished]

/-- Unfolding of `runRegen`. -/
theorem runRegen_eq (env : Env) (deltas : List (Except ParseErr String)) :
    runRegen env deltas
      = { trace := (streamLoop env deltas 0 false "").trace
            ++ (Ev.streamFinished env.messageId
              :: (if (streamLoop env deltas 0 false "").acc.isEmpty then []
                  else [Ev.saveMessage
                    (mkAssistantMessage env (streamLoop env deltas 0 false "").acc)])),
          outcome := (streamLoop env deltas 0 false "").outcome,
          consumed := (streamLoop env deltas 0 false "").consumed,
          acc := (streamLoop env deltas 0 false "").acc,
          regStillMarked := (streamLoop env deltas 0 false "").regStillMarked,
          observedCancel := (streamLoop env deltas 0 false "").observedCancel } := by
  cases he : (streamLoop env deltas 0 false "").acc.isEmpty <;>
    simp [runRegen, he, saveList_save]

/-- The loop's accumulated buffer is the initial buffer followed by the
deltas of the chunks it emitted, and the loop emits nothing but chunks. -/
theorem streamLoop_acc_trace (env : Env) (deltas : List (Except ParseErr String)) :
    ∀ (k : Nat) (reg : Bool) (acc : String),
      (streamLoop env deltas k reg acc).acc
        = acc ++ concatAll (chunkDeltas (streamLoop env deltas k reg acc).trace)
      ∧ ∀ e ∈ (streamLoop env deltas k reg acc).trace, isChunk e = true := by
  induction deltas with
  | nil =>
    intro k reg acc
    refine ⟨?_, ?_⟩
    · simp [streamLoop, chunkDeltas, concatAll, String.append_empty]
    · simp [streamLoop]
  | cons d rest ih =>
    intro k reg acc
    cases d with
    | ok content =>
      simp only [streamLoop]
      split
      · exact ⟨by simp [chunkDeltas, concatAll, String.append_empty], by simp⟩
      · obtain ⟨ha, ht⟩ := ih (k + 1) (regAfterMark env k reg) (acc ++ content)
        refine ⟨?_, ?_⟩
        · simp only [chunkDeltas, List.filterMap_cons] at ha ⊢
          simp only [concatAll] at ha ⊢
          rw [← String.append_assoc]
          exact ha
        · intro e he
          simp only [List.mem_cons] at he
          rcases he with rfl | he
          · rfl
          · exact ht e he
    | error err =>
      simp only [streamLoop]
      split
      · exact ⟨by simp [chunkDeltas, concatAll, String.append_empty], by simp⟩
      · exact ⟨by simp [chunkDeltas, concatAll, String.append_empty], by simp⟩

theorem chunkDeltas_map_chunk (c m : String) (cs : List String) :
    chunkDeltas (cs.map (Ev.messageChunk c m)) = cs := by
  induction cs with
  | nil => rfl
  | cons s cs ih => simp [chunkDeltas, List.filterMap_cons] at ih ⊢; exact ih

theorem mem_map_chunk_isChunk {c m : String} {cs : List String} {e : Ev}
    (h : e ∈ cs.map (Ev.messageChunk c m)) : isChunk e = true := by
  obtain ⟨d, _, rfl⟩ := List.mem_map.mp h
  rfl

/-- Running the loop over `cs` clean `Ok` deltas with the cancellation
mark landing at the very next check: every `cs` delta is chunked, the
next pulled delta is discarded by the fired check, the registry entry is
removed, and the loop stops. -/
theorem streamLoop_cancel (env : Env) (cs : List String) :
    ∀ (k : Nat) (acc : String) (d : Except ParseErr String)
      (rest : List (Except ParseErr String)),
    env.markAt = some (k + cs.length) →
    streamLoop env (cs.map Except.ok ++ d :: rest) k false acc
      = { trace := cs.map (Ev.messageChunk env.conversationId env.messageId),
          outcome := .cancelled, consumed := cs.length + 1,
          acc := acc ++ concatAll cs, regStillMarked := false,
          observedCancel := true } := by
  induction cs with
  | nil =>
    intro k acc d rest hmark
    have hfire : regAfterMark env k false = true := by
      simp [regAfterMark, hmark]
    simp [streamLoop, hfire, concatAll, String.append_empty]
  | cons c cs ih =>
    intro k acc d rest hmark
    have hquiet : regAfterMark env k false = false := by
      simp only [regAfterMark, hmark, Option.some.injEq, if_neg]
      simp only [List.length_cons] at *
      split
      · omega
      · rfl
    simp only [List.map_cons, List.cons_append, streamLoop, hquiet,
      Bool.false_eq_true, if_false]
    have hmark' : env.markAt = some ((k + 1) + cs.length) := by
      rw [hmark]; congr 1; simp [List.length_cons]; omega
    simp only [List.append_eq]
    rw [ih (k + 1) (acc ++ c) d rest hmark']
    simp [concatAll, String.append_assoc, List.length_cons]

/-- Running the loop over `cs` clean `Ok` deltas followed by an `Err`
item, with no cancellation request: every `cs` delta is chunked, then
the error breaks the loop. -/
theorem streamLoop_error (env : Env) (cs : List String)
    (hmark : env.markAt = none) :
    ∀ (k : Nat) (acc : String) (err : ParseErr)
      (rest : List (Except ParseErr String)),
    streamLoop env (cs.map Except.ok ++ .error err :: rest) k false acc
      = { trace := cs.map (Ev.messageChunk env.conversationId env.messageId),
          outcome := .errored, consumed := cs.length + 1,
          acc := acc ++ concatAll cs, regStillMarked := false,
          observedCancel := false } := by
  induction cs with
  | nil =>
    intro k acc err rest
    have hquiet : regAfterMark env k false = false := by
      simp [regAfterMark, hmark]
    simp [streamLoop, hquiet, concatAll, String.append_empty]
  | cons c cs ih =>
    intro k acc err rest
    have hquiet : regAfterMark env k false = false := by
      simp [regAfterMark, hmark]
    simp only [List.map_cons, List.cons_append, streamLoop, hquiet,
      Bool.false_eq_true, if_false]
    simp only [List.append_eq]
    rw [ih (k + 1) (acc ++ c) err rest]
    simp [concatAll, String.append_assoc, List.length_cons]

/-- Derived observables of a non-aborting send task: its chunk deltas
are the loop's, exactly one save carrying the final buffer, exactly one
finished event, exactly one started event. -/
theorem runSend_stats (env : Env) (deltas : List (Except ParseErr String))
    (h : env.startEmitOk = true) :
    chunkDeltas (runSend env deltas).trace
      = chunkDeltas (streamLoop env deltas 0 false "").trace
    ∧ savedContents (runSend env deltas).trace
      = [(streamLoop env deltas 0 false "").acc]
    ∧ countFinished (runSend env deltas).trace = 1
    ∧ countStarted (runSend env deltas).trace = 1 := by
  have hchunks := (streamLoop_acc_trace env deltas 0 false "").2
  have hcf := chunkOnly_countFinished hchunks
  have hcs := chunkOnly_countStarted hchunks
  have hsv := chunkOnly_savedContents hchunks
  rw [runSend_eq env deltas h]
  refine ⟨?_, ?_, ?_, ?_⟩
  · simp [chunkDeltas, List.filterMap_append, List.filterMap_cons]
  · simp only [savedContents, List.filterMap_cons, List.filterMap_append]
      at hsv ⊢
    simp [hsv, mkAssistantMessage]
  · simp only [countFinished, List.countP_cons, List.countP_append]
      at hcf ⊢
    simp [hcf]
  · simp only [countStarted, List.countP_cons, List.countP_append]
      at hcs ⊢
    simp [hcs]

/-- Derived observables of a regenerate task: its chunk deltas are the
loop's, saves carry the final buffer exactly when it is non-empty,
exactly one finished event, and no started event at all. -/
theorem runRegen_stats (env : Env) (deltas : List (Except ParseErr String)) :
    chunkDeltas (runRegen env deltas).trace
      = chunkDeltas (streamLoop env deltas 0 false "").trace
    ∧ savedContents (runRegen env deltas).trace
      = (if (streamLoop env deltas 0 false "").acc.isEmpty then []
         else [(streamLoop env deltas 0 false "").acc])
    ∧ countFinished (runRegen env deltas).trace = 1
    ∧ countStarted (runRegen env deltas).trace = 0 := by
  have hchunks := (streamLoop_acc_trace env deltas 0 false "").2
  have hcf := chunkOnly_countFinished hchunks
  have hcs := chunkOnly_countStarted hchunks
  have hsv := chunkOnly_savedContents hchunks
  rw [runRegen_eq env deltas]
  refine ⟨?_, ?_, ?_, ?_⟩
  · cases he : (streamLoop env deltas 0 false "").acc.isEmpty <;>
      simp [he, chunkDeltas, List.filterMap_append, List.filterMap_cons]
  · cases he : (streamLoop env deltas 0 false "").acc.isEmpty <;>
      (simp only [savedContents, List.filterMap_cons, List.filterMap_append]
        at hsv ⊢
       simp [he, hsv, mkAssistantMessage])
  · cases he : (streamLoop env deltas 0 false "").acc.isEmpty <;>
      (simp only [countFinished, List.countP_cons, List.countP_append]
        at hcf ⊢
       simp [he, hcf])
  · cases he : (streamLoop env deltas 0 false "").acc.isEmpty <;>
      (simp only [countStarted, List.countP_cons, List.countP_append]
        at hcs ⊢
       simp [he, hcs])

/-! ### Concrete inputs used by witnesses and counterexamples -/

/-- A concrete task environment: emits succeed, saves succeed, no
cancellation request ever lands. -/
def envW : Env :=
  { conversationId := "conv-1", messageId := "msg-1", now := 0,
    startEmitOk := true, saveOk := true, markAt := none }

/-- The generic-JSON view of a heartbeat frame. -/
def pingJson : Json := .obj [("type", .str "ping")]

/-- A decoded heartbeat event. -/
def pingEvent : EventData :=
  { raw := "\x7b\"type\": \"ping\"\x7d", parsed := some pingJson }

/-- The generic-JSON view of a structurally valid but unrecognized
frame (no `choices`, not a ping). -/
def strayJson : Json := .obj [("foo", .str "bar")]

/-- A decoded unrecognized event. -/
def strayEvent : EventData :=
  { raw := "\x7b\"foo\": \"bar\"\x7d", parsed := some strayJson }

/-- A decoded `[DONE]` sentinel event. -/
def doneEvent : EventData := { raw := " [DONE] ", parsed := none }

/-- A content-carrying chunk event with delta `"Hel"`. -/
def chunkEvent (delta : String) : EventData :=
  { raw := "\x7b\"id\":\"c1\"\x7d",
    parsed := some (.obj
      [("id", .str "c1"), ("object", .str "chat.completion.chunk"),
       ("created", .num 0), ("model", .str "m"),
       ("choices", .arr [.obj
         [("index", .num 0),
          ("delta", .obj [("content", .str delta)])]])]) }

/-- A role-only first chunk: canonical schema, no `content` field. -/
def roleOnlyEvent : EventData :=
  { raw := "\x7b\"id\":\"c0\"\x7d",
    parsed := some (.obj
      [("id", .str "c0"), ("object", .str "chat.completion.chunk"),
       ("created", .num 0), ("model", .str "m"),
       ("choices", .arr [.obj
         [("index", .num 0),
          ("delta", .obj [("role", .str "assistant")])]])]) }

/-- Is the event a `stream_finished` notification? -/
def isFinishedEv (e : Ev) : Bool :=
  match e with
  | .streamFinished _ => true
  | _ => false

/-- Is the event a `save_message` call? -/
def isSaveEv (e : Ev) : Bool :=
  match e with
  | .saveMessage _ => true
  | _ => false

/-- A send-path environment whose `stream_started` emission fails. -/
def envNoStart : Env := { envW with startEmitOk := false }

/-- A send-path environment where the cancellation request lands before
the second loop check. -/
def envCancel : Env := { envW with markAt := some 1 }

/-! ### Claim theorems -/

/-- C7: a decoded payload that trims to the terminal sentinel `[DONE]`
produces no content item and no error item: the extractor emits the
skip signal and the frame contributes nothing to the delta stream. -/
theorem done_sentinel_silent (e : EventData)
    (hdone : trimString e.raw = "[DONE]") (pre post : List EventData) :
    processEvent e = .ok none
    ∧ extractDeltas (pre ++ e :: post)
        = extractDeltas pre ++ extractDeltas post := by
  have hp : processEvent e = .ok none := by
    simp [processEvent, hdone]
  exact ⟨hp, by simp [extractDeltas, List.filterMap_append,
    List.filterMap_cons, hp]⟩

/-- Witness for `done_sentinel_silent` at the event `" [DONE] "`. -/
theorem done_sentinel_silent_witness :
    trimString doneEvent.raw = "[DONE]"
    ∧ processEvent doneEvent = .ok none
    ∧ extractDeltas ([chunkEvent "Hel"] ++ doneEvent :: [])
        = extractDeltas [chunkEvent "Hel"] ++ extractDeltas [] :=
  ⟨by decide, done_sentinel_silent doneEvent (by decide) [chunkEvent "Hel"] []⟩

/-- C8: a decoded payload that fails the canonical chunk schema but
parses as generic JSON whose `type` field is `"ping"` produces no
content item and no error item, and leaves the session's whole run —
accumulated content included — unchanged. -/
theorem ping_frame_dropped (e : EventData) (v : Json)
    (hdone : ¬ trimString e.raw = "[DONE]") (hp : e.parsed = some v)
    (hchunk : parseChunk v = none)
    (hping : v.getField "type" = some (.str "ping"))
    (pre post : List EventData) (env : Env) :
    processEvent e = .ok none
    ∧ extractDeltas (pre ++ e :: post) = extractDeltas (pre ++ post)
    ∧ runSend env (extractDeltas (pre ++ e :: post))
        = runSend env (extractDeltas (pre ++ post)) := by
  have hping' : isPing v = true := by simp [isPing, hping]
  have hpe : processEvent e = .ok none := by
    simp [processEvent, hdone, hp, hchunk, hping']
  have hex : extractDeltas (pre ++ e :: post) = extractDeltas (pre ++ post) := by
    simp [extractDeltas, List.filterMap_append, List.filterMap_cons, hpe]
  exact ⟨hpe, hex, congrArg (runSend env) hex⟩

/-- Witness for `ping_frame_dropped` at a concrete heartbeat frame
between two content frames. -/
theorem ping_frame_dropped_witness :
    (¬ trimString pingEvent.raw = "[DONE]")
    ∧ pingEvent.parsed = some pingJson
    ∧ parseChunk pingJson = none
    ∧ pingJson.getField "type" = some (.str "ping")
    ∧ processEvent pingEvent = .ok none
    ∧ extractDeltas ([chunkEvent "Hel"] ++ pingEvent :: [chunkEvent "lo"])
        = extractDeltas ([chunkEvent "Hel"] ++ [chunkEvent "lo"])
    ∧ runSend envW (extractDeltas ([chunkEvent "Hel"] ++ pingEvent :: [chunkEvent "lo"]))
        = runSend envW (extractDeltas ([chunkEvent "Hel"] ++ [chunkEvent "lo"])) :=
  ⟨by decide, rfl, by decide, rfl,
    ping_frame_dropped pingEvent pingJson (by decide) rfl (by decide) rfl
      [chunkEvent "Hel"] [chunkEvent "lo"] envW⟩

/-- C10: a payload that parses as the canonical chunk schema but whose
`choices` array is empty, or whose first choice's delta carries no
`content`, produces no content item and no error item: the
`Option`-returning `get(0)`/`and_then` lookup skips it silently. -/
theorem contentless_chunk_skipped (e : EventData) (v : Json)
    (chunk : OpenAIStreamChunk)
    (hdone : ¬ trimString e.raw = "[DONE]") (hp : e.parsed = some v)
    (hchunk : parseChunk v = some chunk)
    (hempty : chunk.choices = []
      ∨ ∃ choice rest, chunk.choices = choice :: rest
          ∧ choice.delta.content = none)
    (pre post : List EventData) :
    processEvent e = .ok none
    ∧ extractDeltas (pre ++ e :: post)
        = extractDeltas pre ++ extractDeltas post := by
  have hnone : chunk.choices.head?.bind (fun choice => choice.delta.content)
      = none := by
    rcases hempty with h | ⟨choice, rest, hc, hn⟩
    · simp [h]
    · simp [hc, hn]
  have hpe : processEvent e = .ok none := by
    simp [processEvent, hdone, hp, hchunk, hnone]
  exact ⟨hpe, by simp [extractDeltas, List.filterMap_append,
    List.filterMap_cons, hpe]⟩

/-- Witness for `contentless_chunk_skipped` at a concrete role-only
first chunk. -/
theorem contentless_chunk_skipped_witness :
    (¬ trimString roleOnlyEvent.raw = "[DONE]")
    ∧ (∃ chunk, parseChunk (.obj
        [("id", .str "c0"), ("object", .str "chat.completion.chunk"),
         ("created", .num 0), ("model", .str "m"),
         ("choices", .arr [.obj
           [("index", .num 0),
            ("delta", .obj [("role", .str "assistant")])]])]) = some chunk)
    ∧ processEvent roleOnlyEvent = .ok none
    ∧ extractDeltas ([] ++ roleOnlyEvent :: [chunkEvent "Hi"])
        = extractDeltas [] ++ extractDeltas [chunkEvent "Hi"] := by
  refine ⟨by decide, ⟨⟨"c0", "chat.completion.chunk", 0, "m",
    [⟨0, ⟨some "assistant", none⟩, none⟩]⟩, by decide⟩, ?_, ?_⟩
  · exact (contentless_chunk_skipped roleOnlyEvent _
      ⟨"c0", "chat.completion.chunk", 0, "m",
        [⟨0, ⟨some "assistant", none⟩, none⟩]⟩
      (by decide) rfl (by decide)
      (Or.inr ⟨⟨0, ⟨some "assistant", none⟩, none⟩, [], rfl, rfl⟩)
      [] [chunkEvent "Hi"]).1
  · exact (contentless_chunk_skipped roleOnlyEvent _
      ⟨"c0", "chat.completion.chunk", 0, "m",
        [⟨0, ⟨some "assistant", none⟩, none⟩]⟩
      (by decide) rfl (by decide)
      (Or.inr ⟨⟨0, ⟨some "assistant", none⟩, none⟩, [], rfl, rfl⟩)
      [] [chunkEvent "Hi"]).2

/-- C9: a payload that parses as generic JSON but is neither the
canonical chunk schema nor a recognized ignorable frame makes the
extractor emit the error carrying the original schema-parse failure;
a send session consuming such a delta transitions to `Errored` (its one
terminal state), pulls no further delta, keeps the content accumulated
so far, and still runs finalization (one save of the partial content,
one finished notification). -/
theorem unrecognized_frame_errors (e : EventData) (v : Json)
    (hdone : ¬ trimString e.raw = "[DONE]") (hp : e.parsed = some v)
    (hchunk : parseChunk v = none) (hping : isPing v = false)
    (env : Env) (cs : List String) (rest : List (Except ParseErr String))
    (hstart : env.startEmitOk = true) (hmark : env.markAt = none) :
    processEvent e = .error (.notAChunk (trimString e.raw))
    ∧ (runSend env (cs.map Except.ok
        ++ .error (.notAChunk (trimString e.raw)) :: rest)).outcome
        = .errored
    ∧ (runSend env (cs.map Except.ok
        ++ .error (.notAChunk (trimString e.raw)) :: rest)).consumed
        = cs.length + 1
    ∧ chunkDeltas (runSend env (cs.map Except.ok
        ++ .error (.notAChunk (trimString e.raw)) :: rest)).trace = cs
    ∧ savedContents (runSend env (cs.map Except.ok
        ++ .error (.notAChunk (trimString e.raw)) :: rest)).trace
        = [concatAll cs]
    ∧ countFinished (runSend env (cs.map Except.ok
        ++ .error (.notAChunk (trimString e.raw)) :: rest)).trace = 1 := by
  have hpe : processEvent e = .error (.notAChunk (trimString e.raw)) := by
    simp [processEvent, hdone, hp, hchunk, hping]
  have hloop := streamLoop_error env cs hmark 0 ""
    (.notAChunk (trimString e.raw)) rest
  rw [String.empty_append] at hloop
  obtain ⟨hc, hs, hf, -⟩ :=
    runSend_stats env
      (cs.map Except.ok ++ .error (.notAChunk (trimString e.raw)) :: rest)
      hstart
  have heq := runSend_eq env
    (cs.map Except.ok ++ .error (.notAChunk (trimString e.raw)) :: rest)
    hstart
  refine ⟨hpe, ?_, ?_, ?_, ?_, hf⟩
  · rw [heq, hloop]
  · rw [heq, hloop]
  · rw [hc, hloop]
    exact chunkDeltas_map_chunk env.conversationId env.messageId cs
  · rw [hs, hloop]

/-- Witness for `unrecognized_frame_errors` at a concrete
`\x7b"foo": "bar"\x7d` frame after one `"He"` content delta. -/
theorem unrecognized_frame_errors_witness :
    (¬ trimString strayEvent.raw = "[DONE]")
    ∧ strayEvent.parsed = some strayJson
    ∧ parseChunk strayJson = none
    ∧ isPing strayJson = false
    ∧ processEvent strayEvent
        = .error (.notAChunk (trimString strayEvent.raw))
    ∧ (runSend envW ([ "He" ].map Except.ok
        ++ .error (.notAChunk (trimString strayEvent.raw)) :: [])).outcome
        = .errored
    ∧ (runSend envW ([ "He" ].map Except.ok
        ++ .error (.notAChunk (trimString strayEvent.raw)) :: [])).consumed
        = 2
    ∧ chunkDeltas (runSend envW ([ "He" ].map Except.ok
        ++ .error (.notAChunk (trimString strayEvent.raw)) :: [])).trace
        = ["He"]
    ∧ savedContents (runSend envW ([ "He" ].map Except.ok
        ++ .error (.notAChunk (trimString strayEvent.raw)) :: [])).trace
        = [concatAll ["He"]]
    ∧ countFinished (runSend envW ([ "He" ].map Except.ok
        ++ .error (.notAChunk (trimString strayEvent.raw)) :: [])).trace
        = 1 :=
  ⟨by decide, rfl, by decide, by decide,
    unrecognized_frame_errors strayEvent strayJson (by decide) rfl
      (by decide) (by decide) envW ["He"] [] rfl rfl⟩

/-- C1: for every send session, in every terminal outcome, the
concatenation (in arrival order) of the deltas carried by the emitted
chunk notifications equals the content of the Message persisted at
finalization; on the regenerate path every persisted Message likewise
carries exactly that concatenation. -/
theorem chunk_concat_eq_saved (env : Env)
    (deltas : List (Except ParseErr String)) (h : env.startEmitOk = true) :
    savedContents (runSend env deltas).trace
      = [concatAll (chunkDeltas (runSend env deltas).trace)]
    ∧ ∀ c ∈ savedContents (runRegen env deltas).trace,
        c = concatAll (chunkDeltas (runRegen env deltas).trace) := by
  obtain ⟨hc, hs, -, -⟩ := runSend_stats env deltas h
  obtain ⟨hc', hs', -, -⟩ := runRegen_stats env deltas
  have hacc := (streamLoop_acc_trace env deltas 0 false "").1
  rw [String.empty_append] at hacc
  refine ⟨by rw [hs, hc, hacc], ?_⟩
  intro c hcm
  rw [hs'] at hcm
  rw [hc']
  rcases he : (streamLoop env deltas 0 false "").acc.isEmpty with _ | _
  · rw [he] at hcm
    simp at hcm
    rw [hcm, hacc]
  · rw [he] at hcm
    simp at hcm

/-- Witness for `chunk_concat_eq_saved` on the two-fragment stream
`"Hel"`, `"lo"`. -/
theorem chunk_concat_eq_saved_witness :
    envW.startEmitOk = true
    ∧ savedContents (runSend envW [Except.ok "Hel", Except.ok "lo"]).trace
        = [concatAll (chunkDeltas
            (runSend envW [Except.ok "Hel", Except.ok "lo"]).trace)]
    ∧ ∀ c ∈ savedContents (runRegen envW [Except.ok "Hel", Except.ok "lo"]).trace,
        c = concatAll (chunkDeltas
            (runRegen envW [Except.ok "Hel", Except.ok "lo"]).trace) :=
  ⟨rfl, chunk_concat_eq_saved envW [Except.ok "Hel", Except.ok "lo"] rfl⟩

/-- C2 fails on the send path: a send session that terminates with an
empty accumulated buffer still calls `save_message` — with an empty
assistant Message (commands.rs 282–299 has no emptiness check). -/
theorem send_empty_buffer_still_saves :
    (runSend envW []).acc = ""
    ∧ savedContents (runSend envW []).trace = [""] := by decide

/-- C2 amended: on the regenerate path an empty buffer suppresses
persistence and a non-empty buffer is persisted exactly once; the send
path always persists exactly one Message holding the buffer, even when
the buffer is empty. -/
theorem persistence_policy (env : Env) (deltas : List (Except ParseErr String))
    (h : env.startEmitOk = true) :
    savedContents (runSend env deltas).trace = [(runSend env deltas).acc]
    ∧ ((runRegen env deltas).acc = "" →
        savedContents (runRegen env deltas).trace = [])
    ∧ (¬ (runRegen env deltas).acc = "" →
        savedContents (runRegen env deltas).trace
          = [(runRegen env deltas).acc]) := by
  obtain ⟨-, hsv, -, -⟩ := runSend_stats env deltas h
  obtain ⟨-, hsv', -, -⟩ := runRegen_stats env deltas
  have hacc : (runSend env deltas).acc
      = (streamLoop env deltas 0 false "").acc := by
    rw [runSend_eq env deltas h]
  have hacc' : (runRegen env deltas).acc
      = (streamLoop env deltas 0 false "").acc := by
    rw [runRegen_eq env deltas]
  refine ⟨by rw [hsv, hacc], ?_, ?_⟩
  · intro he
    rw [hacc'] at he
    rw [hsv', if_pos (by simp [he, String.isEmpty_iff])]
  · intro he
    rw [hacc'] at he
    rw [hsv', if_neg (by simp [String.isEmpty_iff, he]), hacc']

/-- Witness for `persistence_policy` on a one-fragment stream. -/
theorem persistence_policy_witness :
    envW.startEmitOk = true
    ∧ (savedContents (runSend envW [Except.ok "Hi"]).trace
        = [(runSend envW [Except.ok "Hi"]).acc]
      ∧ ((runRegen envW [Except.ok "Hi"]).acc = "" →
          savedContents (runRegen envW [Except.ok "Hi"]).trace = [])
      ∧ (¬ (runRegen envW [Except.ok "Hi"]).acc = "" →
          savedContents (runRegen envW [Except.ok "Hi"]).trace
            = [(runRegen envW [Except.ok "Hi"]).acc])) :=
  ⟨rfl, persistence_policy envW [Except.ok "Hi"] rfl⟩

/-- C3 fails on the regenerate path: the finished notification is
emitted (index 1 of the trace) before the persistence attempt
(index 2). -/
theorem regen_finished_precedes_save :
    (runRegen envW [Except.ok "hi"]).trace
      = [Ev.messageChunk "conv-1" "msg-1" "hi",
         Ev.streamFinished "msg-1",
         Ev.saveMessage
           { id := "msg-1", conversation_id := "conv-1", role := "assistant",
             content := "hi", timestamp := 0, metadata := none }]
    ∧ (runRegen envW [Except.ok "hi"]).trace.findIdx isFinishedEv = 1
    ∧ (runRegen envW [Except.ok "hi"]).trace.findIdx isSaveEv = 2 := by
  decide

/-- C3 amended: on the send path finalization persists the accumulated
Message and then emits the finished notification, as the last two
events of the trace; on the regenerate path the finished notification
is emitted first and the persistence attempt (when any) follows it. -/
theorem finalization_order (env : Env) (deltas : List (Except ParseErr String))
    (h : env.startEmitOk = true) :
    (∃ chunkTrace, (∀ e ∈ chunkTrace, isChunk e = true)
      ∧ (runSend env deltas).trace
        = Ev.streamStarted env.conversationId env.messageId
            :: (chunkTrace
              ++ [Ev.saveMessage (mkAssistantMessage env (runSend env deltas).acc),
                  Ev.streamFinished env.messageId]))
    ∧ (∃ chunkTrace saves, (∀ e ∈ chunkTrace, isChunk e = true)
      ∧ (∀ e ∈ saves, isSaveEv e = true)
      ∧ (runRegen env deltas).trace
        = chunkTrace ++ (Ev.streamFinished env.messageId :: saves)) := by
  have hchunks := (streamLoop_acc_trace env deltas 0 false "").2
  have hacc : (runSend env deltas).acc
      = (streamLoop env deltas 0 false "").acc := by
    rw [runSend_eq env deltas h]
  constructor
  · refine ⟨(streamLoop env deltas 0 false "").trace, hchunks, ?_⟩
    rw [hacc, runSend_eq env deltas h]
  · refine ⟨(streamLoop env deltas 0 false "").trace,
      (if (streamLoop env deltas 0 false "").acc.isEmpty then []
       else [Ev.saveMessage
         (mkAssistantMessage env (streamLoop env deltas 0 false "").acc)]),
      hchunks, ?_, ?_⟩
    · intro e he
      rcases hie : (streamLoop env deltas 0 false "").acc.isEmpty with _ | _ <;>
        rw [hie] at he <;> simp at he
      rw [he]
      rfl
    · rw [runRegen_eq env deltas]

/-- Witness for `finalization_order` on a one-fragment stream. -/
theorem finalization_order_witness :
    envW.startEmitOk = true
    ∧ ((∃ chunkTrace, (∀ e ∈ chunkTrace, isChunk e = true)
        ∧ (runSend envW [Except.ok "Hi"]).trace
          = Ev.streamStarted envW.conversationId envW.messageId
              :: (chunkTrace
                ++ [Ev.saveMessage
                      (mkAssistantMessage envW (runSend envW [Except.ok "Hi"]).acc),
                    Ev.streamFinished envW.messageId]))
      ∧ (∃ chunkTrace saves, (∀ e ∈ chunkTrace, isChunk e = true)
        ∧ (∀ e ∈ saves, isSaveEv e = true)
        ∧ (runRegen envW [Except.ok "Hi"]).trace
          = chunkTrace ++ (Ev.streamFinished envW.messageId :: saves))) :=
  ⟨rfl, finalization_order envW [Except.ok "Hi"] rfl⟩

/-- C4: every session that enters the streaming phase emits exactly one
finished notification, whatever terminal state was reached, and a
failure of the final persistence attempt (saveOk = false) does not
prevent it — on the send and the regenerate path alike. -/
theorem finished_exactly_once (env : Env)
    (deltas : List (Except ParseErr String)) (h : env.startEmitOk = true) :
    countFinished (runSend env deltas).trace = 1
    ∧ countFinished (runRegen env deltas).trace = 1
    ∧ countFinished (runSend { env with saveOk := false } deltas).trace = 1
    ∧ countFinished (runRegen { env with saveOk := false } deltas).trace = 1 :=
  ⟨(runSend_stats env deltas h).2.2.1,
   (runRegen_stats env deltas).2.2.1,
   (runSend_stats { env with saveOk := false } deltas h).2.2.1,
   (runRegen_stats { env with saveOk := false } deltas).2.2.1⟩

/-- Witness for `finished_exactly_once` on an erroring stream. -/
theorem finished_exactly_once_witness :
    envW.startEmitOk = true
    ∧ (countFinished (runSend envW [Except.error (.notJson "x")]).trace = 1
      ∧ countFinished (runRegen envW [Except.error (.notJson "x")]).trace = 1
      ∧ countFinished
          (runSend { envW with saveOk := false }
            [Except.error (.notJson "x")]).trace = 1
      ∧ countFinished
          (runRegen { envW with saveOk := false }
            [Except.error (.notJson "x")]).trace = 1) :=
  ⟨rfl, finished_exactly_once envW [Except.error (.notJson "x")] rfl⟩

/-- C5 fails on the regenerate path: a chunk is emitted in a session
whose trace contains no started notification at all, so no started
notification precedes the first chunk. -/
theorem regen_chunk_without_started :
    countStarted (runRegen envW [Except.ok "Hi"]).trace = 0
    ∧ chunkDeltas (runRegen envW [Except.ok "Hi"]).trace = ["Hi"] := by
  decide

/-- C5 amended: on the send path the started notification (carrying the
conversation id and message id) is the first event of every run — hence
precedes any chunk — and if its emission fails the task aborts with no
chunk, no persistence, no finished notification and no delta consumed;
the regenerate path emits no started notification at all. -/
theorem started_emission_policy (env : Env)
    (deltas : List (Except ParseErr String)) :
    (runSend env deltas).trace.head?
      = some (Ev.streamStarted env.conversationId env.messageId)
    ∧ (env.startEmitOk = false →
        (runSend env deltas).trace
          = [Ev.streamStarted env.conversationId env.messageId]
        ∧ (runSend env deltas).consumed = 0
        ∧ countFinished (runSend env deltas).trace = 0
        ∧ savedContents (runSend env deltas).trace = [])
    ∧ countStarted (runRegen env deltas).trace = 0 := by
  refine ⟨?_, ?_, (runRegen_stats env deltas).2.2.2⟩
  · rcases hs : env.startEmitOk with _ | _
    · simp [runSend, hs]
    · rw [runSend_eq env deltas hs]
      rfl
  · intro hs
    simp [runSend, hs, countFinished, savedContents]

/-- Witness for `started_emission_policy` in the failing-emit
environment. -/
theorem started_emission_policy_witness :
    ((runSend envNoStart [Except.ok "Hi"]).trace.head?
      = some (Ev.streamStarted "conv-1" "msg-1"))
    ∧ (envNoStart.startEmitOk = false →
        (runSend envNoStart [Except.ok "Hi"]).trace
          = [Ev.streamStarted "conv-1" "msg-1"]
        ∧ (runSend envNoStart [Except.ok "Hi"]).consumed = 0
        ∧ countFinished (runSend envNoStart [Except.ok "Hi"]).trace = 0
        ∧ savedContents (runSend envNoStart [Except.ok "Hi"]).trace = [])
    ∧ countStarted (runRegen envNoStart [Except.ok "Hi"]).trace = 0 :=
  started_emission_policy envNoStart [Except.ok "Hi"]

/-- C6: when `stop_generation` marks the session's message id before the
controller's next per-delta check, that check fires: the session is
cancelled, the registry entry is removed, the delta pulled for that
check is discarded and no further delta is consumed, no chunk is
emitted from the observation point on (the chunks are exactly the
pre-observation `cs`), and exactly one finished notification is still
emitted. -/
theorem cancellation_observed (env : Env) (cs : List String)
    (d : Except ParseErr String) (rest : List (Except ParseErr String))
    (hstart : env.startEmitOk = true) (hmark : env.markAt = some cs.length) :
    (runSend env (cs.map Except.ok ++ d :: rest)).outcome = .cancelled
    ∧ (runSend env (cs.map Except.ok ++ d :: rest)).observedCancel = true
    ∧ (runSend env (cs.map Except.ok ++ d :: rest)).regStillMarked = false
    ∧ (runSend env (cs.map Except.ok ++ d :: rest)).consumed = cs.length + 1
    ∧ chunkDeltas (runSend env (cs.map Except.ok ++ d :: rest)).trace = cs
    ∧ countFinished (runSend env (cs.map Except.ok ++ d :: rest)).trace = 1 := by
  have hloop := streamLoop_cancel env cs 0 "" d rest
    (by rw [hmark]; congr 1; omega)
  obtain ⟨hc, -, hf, -⟩ :=
    runSend_stats env (cs.map Except.ok ++ d :: rest) hstart
  have heq := runSend_eq env (cs.map Except.ok ++ d :: rest) hstart
  refine ⟨?_, ?_, ?_, ?_, ?_, hf⟩
  · rw [heq, hloop]
  · rw [heq, hloop]
  · rw [heq, hloop]
  · rw [heq, hloop]
  · rw [hc, hloop]
    exact chunkDeltas_map_chunk env.conversationId env.messageId cs

/-- Witness for `cancellation_observed`: the mark lands before check 1;
the `"llo"` delta is pulled and discarded, `"!"` is never consumed. -/
theorem cancellation_observed_witness :
    envCancel.startEmitOk = true
    ∧ envCancel.markAt = some 1
    ∧ ((runSend envCancel ([ "He" ].map Except.ok
          ++ Except.ok "llo" :: [Except.ok "!"])).outcome = .cancelled
      ∧ (runSend envCancel ([ "He" ].map Except.ok
          ++ Except.ok "llo" :: [Except.ok "!"])).observedCancel = true
      ∧ (runSend envCancel ([ "He" ].map Except.ok
          ++ Except.ok "llo" :: [Except.ok "!"])).regStillMarked = false
      ∧ (runSend envCancel ([ "He" ].map Except.ok
          ++ Except.ok "llo" :: [Except.ok "!"])).consumed = 2
      ∧ chunkDeltas (runSend envCancel ([ "He" ].map Except.ok
          ++ Except.ok "llo" :: [Except.ok "!"])).trace = ["He"]
      ∧ countFinished (runSend envCancel ([ "He" ].map Except.ok
          ++ Except.ok "llo" :: [Except.ok "!"])).trace = 1) :=
  ⟨rfl, rfl,
    cancellation_observed envCancel ["He"] (Except.ok "llo") [Except.ok "!"]
      rfl rfl⟩

end LocalChat
